import Mathlib

/-!
Verification development for the RAG pipeline of this repository.

The definitions below are shallow embeddings of the Python source:
  - backend/rag/document_processor.py  (sentence splitting, chunking, extension dispatch)
  - backend/rag/vector_store.py        (owner-scoped search and delete over the index)
  - backend/rag/llm_client.py          (answer generation, fallback, source extraction)
  - backend/rag/rag_service.py         (orchestrator: ingest validation, query, delete)

Modelling conventions:
  - The tokenizer (tiktoken cl100k_base) is an opaque parameter
    tok : String -> Nat; the repository treats it as a black-box counter.
  - Python exceptions are Except values; an HTTP error is an HTTPError value.
  - Python dicts with fixed keys are structures; keys that a code path omits
    become none fields.
  - The embedding distance function of ChromaDB is an opaque parameter
    dist : String -> String -> Int; search ranks ascending by distance.
-/

/-- The apostrophe character, spliced into the message strings of the source. -/
def apo : String := String.singleton (Char.ofNat 39)

/-- Decidable equality for Except values, used to evaluate the embedded
operations on concrete inputs. -/
instance {ε α : Type} [DecidableEq ε] [DecidableEq α] :
    DecidableEq (Except ε α)
  | .ok a, .ok b =>
    if h : a = b then .isTrue (congrArg Except.ok h)
    else .isFalse (fun hh => h (Except.ok.inj hh))
  | .error a, .error b =>
    if h : a = b then .isTrue (congrArg Except.error h)
    else .isFalse (fun hh => h (Except.error.inj hh))
  | .ok _, .error _ => .isFalse (fun hh => Except.noConfusion hh)
  | .error _, .ok _ => .isFalse (fun hh => Except.noConfusion hh)

/- ===================== document_processor.py ===================== -/

/-- Model of the regex class [.!?] in _split_into_sentences. -/
def isSentencePunct (c : Char) : Bool :=
  c = '.' || c = '!' || c = '?'

/-- True when the list starts with a sentence punctuation mark. -/
def headIsPunct : List Char → Bool
  | [] => false
  | d :: _ => isSentencePunct d

/-- Model of re.split applied with the pattern that breaks after `.`, `!` or `?`
followed by whitespace (document_processor.py line 220).  The scan keeps the
current fragment reversed in acc; a whitespace character whose predecessor
(the head of acc) is a punctuation mark closes the fragment, and skipping
then consumes the maximal whitespace run of the separator.  The punctuation
mark stays with the fragment on its left, exactly as the lookbehind does. -/
def raw_split (skipping : Bool) : List Char → List Char → List (List Char)
  | [], acc => [acc.reverse]
  | c :: rest, acc =>
    if skipping then
      if c.isWhitespace then raw_split true rest acc
      else raw_split false rest [c]
    else
      if c.isWhitespace && headIsPunct acc then
        acc.reverse :: raw_split true rest []
      else raw_split false rest (c :: acc)

/-- Model of Python str.strip: drop whitespace from both ends. -/
def stripWs (cs : List Char) : List Char :=
  ((cs.dropWhile Char.isWhitespace).reverse.dropWhile Char.isWhitespace).reverse

/-- Python str.strip on a String. -/
def strip_str (s : String) : String :=
  String.mk (stripWs s.data)

/-- DocumentProcessor._split_into_sentences: split on the boundary pattern,
strip each fragment, keep only fragments of stripped length strictly
greater than 10 (document_processor.py lines 217-229). -/
def split_into_sentences (text : String) : List String :=
  (((raw_split false text.data []).map stripWs).filter
      (fun cs => 10 < cs.length)).map (fun cs => String.mk cs)

/-- Cumulative token count of a list of sentences: the running count the
chunk loop maintains by summing per-sentence encode lengths. -/
def sumTok (tok : String → Nat) (l : List String) : Nat :=
  (l.map tok).sum

/-- A chunk in structured form: the overlap window carried over from the
predecessor chunk, and the fresh sentences appended after it.  The source
list current_chunk corresponds to ov ++ fresh. -/
structure SChunk where
  ov : List String
  fresh : List String
deriving DecidableEq, Repr

/-- The sentence list of a structured chunk, as the source holds it. -/
def SChunk.sentences (c : SChunk) : List String :=
  c.ov ++ c.fresh

/-- The backward walk of document_processor.py lines 196-203: traverse the
reversed just-closed chunk, prepending each sentence while the accumulated
token count stays within the overlap budget, and stop at the first sentence
that would exceed it.  Returns the window in original order with its count. -/
def overlap_walk (tok : String → Nat) (budget : Nat) :
    List String → List String → Nat → List String × Nat
  | [], acc, accT => (acc, accT)
  | s :: rest, acc, accT =>
    if accT + tok s ≤ budget then
      overlap_walk tok budget rest (s :: acc) (accT + tok s)
    else
      (acc, accT)

/-- The chunking loop of DocumentProcessor._chunk_text (lines 185-213), with
the current chunk kept in structured (overlap window, fresh part) form;
the source variable current_chunk is cur.ov ++ cur.fresh and current_tokens
is the running sum curT. -/
def chunk_loop (tok : String → Nat) (max_chunk_size chunk_overlap : Nat) :
    List String → List SChunk → SChunk → Nat → List SChunk
  | [], chunks, cur, _ =>
    if cur.sentences.isEmpty then chunks else chunks ++ [cur]
  | s :: rest, chunks, cur, curT =>
    if max_chunk_size < curT + tok s && !cur.sentences.isEmpty then
      let w := overlap_walk tok chunk_overlap cur.sentences.reverse [] 0
      chunk_loop tok max_chunk_size chunk_overlap rest
        (chunks ++ [cur]) ⟨w.1, [s]⟩ (w.2 + tok s)
    else
      chunk_loop tok max_chunk_size chunk_overlap rest
        chunks ⟨cur.ov, cur.fresh ++ [s]⟩ (curT + tok s)

/-- Structured chunks of a sentence list (initial state: empty chunk, zero count). -/
def chunk_sentences (tok : String → Nat) (max_chunk_size chunk_overlap : Nat)
    (sentences : List String) : List SChunk :=
  chunk_loop tok max_chunk_size chunk_overlap sentences [] ⟨[], []⟩ 0

/-- Python single-space join of a sentence list. -/
def joinSp (l : List String) : String :=
  String.intercalate " " l

/-- The loop of _chunk_text exactly as the source writes it, with the current
chunk as a flat sentence list; used to certify the structured loop. -/
def chunk_text_loop (tok : String → Nat) (max_chunk_size chunk_overlap : Nat) :
    List String → List String → List String → Nat → List String
  | [], chunks, cur, _ =>
    if cur.isEmpty then chunks else chunks ++ [joinSp cur]
  | s :: rest, chunks, cur, curT =>
    if max_chunk_size < curT + tok s && !cur.isEmpty then
      let w := overlap_walk tok chunk_overlap cur.reverse [] 0
      chunk_text_loop tok max_chunk_size chunk_overlap rest
        (chunks ++ [joinSp cur]) (w.1 ++ [s]) (w.2 + tok s)
    else
      chunk_text_loop tok max_chunk_size chunk_overlap rest
        chunks (cur ++ [s]) (curT + tok s)

/-- DocumentProcessor._chunk_text: split into sentences, then run the packing
loop with overlap (the source fixes max_chunk_size = 1000, chunk_overlap = 200
in its constructor; both are parameters of the contract). -/
def chunk_text (tok : String → Nat) (max_chunk_size chunk_overlap : Nat)
    (text : String) : List String :=
  chunk_text_loop tok max_chunk_size chunk_overlap
    (split_into_sentences text) [] [] 0

/- ===================== vector_store.py ===================== -/

/-- One row of the ChromaDB collection as add_documents populates it: the
chunk id, the chunk text, and the metadata keys the claims touch (user_id
and document_id are always set by add_documents lines 64-67; filename comes
from the chunk metadata built in process_document). -/
structure Entry where
  id : String
  text : String
  user_id : String
  document_id : String
  filename : String
deriving DecidableEq, Repr

/-- A formatted search result of search_similar lines 112-120: the matched
row together with its similarity score (1 - distance). -/
structure SearchHit where
  entry : Entry
  score : Int
deriving DecidableEq, Repr

/-- The where clause built in search_similar lines 96-101: always filter on
user_id; filter on document_id only when the optional list is truthy
(Python: None and the empty list are both falsy). -/
def whereMatch (user_id : String) (document_ids : Option (List String))
    (e : Entry) : Bool :=
  e.user_id == user_id &&
    (match document_ids with
     | none => true
     | some ids => if ids.isEmpty then true else ids.contains e.document_id)

/-- Insertion into a list kept sorted by ascending distance to the query. -/
def insertByDist (dist : String → String → Int) (query : String) (e : Entry) :
    List Entry → List Entry
  | [] => [e]
  | f :: t =>
    if dist query e.text ≤ dist query f.text then e :: f :: t
    else f :: insertByDist dist query e t

/-- Ranking of the candidate rows by ascending embedding distance, the order
in which the ChromaDB query returns them. -/
def rankByDist (dist : String → String → Int) (query : String)
    (l : List Entry) : List Entry :=
  l.foldr (insertByDist dist query) []

/-- VectorStore.search_similar (lines 84-123): restrict the collection to the
where clause, rank by distance, take at most n_results, and format each hit
with score = 1 - distance. -/
def search_similar (dist : String → String → Int) (store : List Entry)
    (query user_id : String) (n_results : Nat)
    (document_ids : Option (List String)) : List SearchHit :=
  ((rankByDist dist query (store.filter (whereMatch user_id document_ids))).take
      n_results).map (fun e => ⟨e, 1 - dist query e.text⟩)

/-- VectorStore.delete_document (lines 129-150): fetch the rows matching both
document_id and user_id; when some exist, delete exactly the rows bearing
their ids and return true, otherwise leave the store unchanged and return
false. -/
def delete_document (store : List Entry) (document_id user_id : String) :
    List Entry × Bool :=
  let matched := store.filter
    (fun e => e.document_id == document_id && e.user_id == user_id)
  let ids := matched.map Entry.id
  if matched.isEmpty then (store, false)
  else (store.filter (fun e => !(ids.contains e.id)), true)

/-- VectorStore.get_user_document_count (lines 152-169): the number of
distinct document_id values among the rows owned by user_id. -/
def get_user_document_count (store : List Entry) (user_id : String) : Nat :=
  (((store.filter (fun e => e.user_id == user_id)).map Entry.document_id).dedup).length

/- ===================== llm_client.py ===================== -/

/-- One conversation message (a role/content dict). -/
structure ChatMsg where
  role : String
  content : String
deriving DecidableEq, Repr

/-- One deduplicated source record built by _extract_sources. -/
structure SourceInfo where
  document_id : String
  filename : String
  relevance_score : Int
  chunk_count : Nat
deriving DecidableEq, Repr

/-- The dict generate_response returns.  The success path fills model and
leaves error empty; the exception path (lines 90-97) fills error, omits the
model key (none here) and zeroes the rest. -/
structure GenResult where
  response : String
  sources : List SourceInfo
  context_used : Nat
  model : Option String
  error : Option String
deriving DecidableEq, Repr

/-- The LLM client state after _initialize_clients: each provider is either
absent or a call taking (system prompt, user prompt) to a raw completion or
a failure message.  Together AI has priority over OpenAI (lines 72-78). -/
structure LLMClient where
  together_client : Option (String → String → Except String String)
  openai_client : Option (String → String → Except String String)

/-- LLMClient._build_context (lines 99-114): render at most the top 5 chunks
with filename, relevance and text.  The two-decimal float rendering of the
score is abstracted to the integer rendering of the modelled score. -/
def build_context (context_chunks : List SearchHit) : String :=
  if context_chunks.isEmpty then "No relevant documents found."
  else
    String.intercalate "\n---\n"
      ((context_chunks.take 5).enum.map (fun p =>
        "Document " ++ toString (p.1 + 1) ++ " (" ++ p.2.entry.filename ++
        ", relevance: " ++ toString p.2.score ++ "):\n" ++ p.2.entry.text ++ "\n"))

/-- LLMClient._create_system_prompt (lines 116-126). -/
def create_system_prompt : String :=
  "You are a helpful AI assistant that answers questions based on provided document context. \n\nGuidelines:\n- Use the provided document context to answer questions accurately\n- If the context doesn" ++ apo ++ "t contain enough information, clearly state this\n- Cite specific documents when referencing information\n- Be concise but comprehensive in your responses\n- If asked about something not in the context, explain that you can only answer based on the provided documents\n- Maintain a professional and helpful tone"

/-- ASCII model of Python str.title applied to a single word: first letter
upper-cased, the rest lower-cased. -/
def title_str (s : String) : String :=
  String.mk (match s.data with
    | [] => []
    | c :: cs => c.toUpper :: cs.map Char.toLower)

/-- LLMClient._create_user_prompt (lines 128-156): last three history turns
as role-labeled lines, then the context block, then the question. -/
def create_user_prompt (query context : String)
    (chat_history : List ChatMsg) : String :=
  let hist :=
    if chat_history.isEmpty then []
    else
      ["Previous conversation:"] ++
        ((chat_history.drop (chat_history.length - 3)).map
          (fun m => title_str m.role ++ ": " ++ m.content)) ++ [""]
  String.intercalate "\n"
    (hist ++ ["Relevant document context:", context, "",
              "Question: " ++ query, "",
              "Please provide a helpful answer based on the document context above."])

/-- LLMClient._generate_together_response (lines 158-176): call the provider,
strip the returned content; a failure is logged and re-raised unchanged. -/
def generate_together_response (call : String → String → Except String String)
    (system_prompt user_prompt : String) : Except String String :=
  match call system_prompt user_prompt with
  | .ok content => .ok (strip_str content)
  | .error e => .error e

/-- LLMClient._generate_openai_response (lines 178-195): same shape as the
Together AI path. -/
def generate_openai_response (call : String → String → Except String String)
    (system_prompt user_prompt : String) : Except String String :=
  match call system_prompt user_prompt with
  | .ok content => .ok (strip_str content)
  | .error e => .error e

/-- The no-documents fallback sentence of _generate_fallback_response. -/
def no_docs_message : String :=
  "I found no relevant documents to answer your question. Please try uploading documents related to your query."

/-- The configuration notice appended by _generate_fallback_response. -/
def api_note : String :=
  "\n\n(Note: Full AI responses require API key configuration)"

/-- The preview loop of _generate_fallback_response lines 203-207: for at
most the first 2 chunks, append filename and the first 200 characters of the
chunk text. -/
def context_preview (context_chunks : List SearchHit) : String :=
  (context_chunks.take 2).foldl
    (fun acc ch =>
      acc ++ "\n\nFrom " ++ ch.entry.filename ++ ": " ++ ch.entry.text.take 200 ++ "...")
    ""

/-- LLMClient._generate_fallback_response (lines 197-209); the query argument
of the source is unused by its body. -/
def generate_fallback_response (_query : String)
    (context_chunks : List SearchHit) : String :=
  if context_chunks.isEmpty then no_docs_message
  else
    "I found " ++ toString context_chunks.length ++
    " relevant document(s) for your query. Here" ++ apo ++ "s what I found:" ++
    context_preview context_chunks ++ api_note

/-- The recursion of _extract_sources (lines 211-230): walk the hits, keep
the first occurrence of each truthy document_id, and count the hits sharing
that document_id over the whole passed-in list. -/
def extract_sources_go (all : List SearchHit) :
    List SearchHit → List String → List SourceInfo
  | [], _ => []
  | h :: rest, seen =>
    let did := h.entry.document_id
    if did ≠ "" ∧ ¬ seen.contains did then
      { document_id := did,
        filename := h.entry.filename,
        relevance_score := h.score,
        chunk_count :=
          (all.filter (fun x => x.entry.document_id == did)).length } ::
        extract_sources_go all rest (did :: seen)
    else
      extract_sources_go all rest seen

/-- LLMClient._extract_sources. -/
def extract_sources (context_chunks : List SearchHit) : List SourceInfo :=
  extract_sources_go context_chunks context_chunks []

/-- LLMClient._get_active_model (lines 232-239). -/
def get_active_model (c : LLMClient) : String :=
  if c.together_client.isSome then "meta-llama/Llama-2-70b-chat-hf"
  else if c.openai_client.isSome then "gpt-3.5-turbo"
  else "fallback"

/-- The apology string of the exception path of generate_response. -/
def apology_message : String :=
  "I apologize, but I encountered an error while processing your question. Please try again."

/-- LLMClient.generate_response (lines 44-97).  The whole body sits in a
try/except, so a provider failure never escapes: the except arm returns the
apology dict with the error message, no sources, zero context and no model
key.  The Except result type records that no exception leaves this function
(every path is .ok). -/
def generate_response (c : LLMClient) (query : String)
    (context_chunks : List SearchHit) (chat_history : List ChatMsg) :
    Except String GenResult :=
  let context := build_context context_chunks
  let system_prompt := create_system_prompt
  let user_prompt := create_user_prompt query context chat_history
  let attempt : Except String String :=
    match c.together_client with
    | some call => generate_together_response call system_prompt user_prompt
    | none =>
      match c.openai_client with
      | some call => generate_openai_response call system_prompt user_prompt
      | none => .ok (generate_fallback_response query context_chunks)
  match attempt with
  | .ok resp =>
      .ok { response := resp,
            sources := extract_sources context_chunks,
            context_used := context_chunks.length,
            model := some (get_active_model c),
            error := none }
  | .error e =>
      .ok { response := apology_message,
            sources := [],
            context_used := 0,
            model := none,
            error := some e }

/- ===================== rag_service.py ===================== -/

/-- An HTTPException raised by the orchestrator. -/
structure HTTPError where
  status_code : Nat
  detail : String
deriving DecidableEq, Repr

/-- The dict query_documents returns.  Keys a path omits are none / []. -/
structure QueryResult where
  response : String
  sources : List SourceInfo
  context_used : Nat
  suggestions : List String
  model : Option String
  error : Option String
  query : Option String
  timestamp : Option String
  total_documents_searched : Option Nat
deriving DecidableEq, Repr

/-- The confirmation dict of RAGService.delete_document. -/
structure DeleteResult where
  document_id : String
  status : String
  message : String
deriving DecidableEq, Repr

/-- The zero-hit response text of query_documents line 135. -/
def no_info_response : String :=
  "I couldn" ++ apo ++
  "t find any relevant information in your documents to answer this question. Please make sure you have uploaded documents related to your query."

/-- The suggestions list of query_documents lines 138-142. -/
def query_suggestions : List String :=
  ["Try rephrasing your question",
   "Upload documents related to your topic",
   "Check if your documents contain the information you" ++ apo ++ "re looking for"]

/-- RAGService.query_documents (lines 101-166), with the ChromaDB state, the
LLM client and the wall clock passed explicitly.  The Bool records whether
the Answer Generator (generate_response) was invoked on the request. -/
def query_documents (dist : String → String → Int) (store : List Entry)
    (client : LLMClient) (now : String) (query user_id : String)
    (document_ids : Option (List String)) (chat_history : List ChatMsg) :
    Except HTTPError QueryResult × Bool :=
  if strip_str query = "" then
    (.error ⟨400, "Query cannot be empty"⟩, false)
  else
    let relevant_chunks := search_similar dist store query user_id 5 document_ids
    if relevant_chunks.isEmpty then
      (.ok { response := no_info_response,
             sources := [],
             context_used := 0,
             suggestions := query_suggestions,
             model := none, error := none, query := none,
             timestamp := none, total_documents_searched := none }, false)
    else
      match generate_response client query relevant_chunks chat_history with
      | .ok r =>
        (.ok { response := r.response,
               sources := r.sources,
               context_used := r.context_used,
               suggestions := [],
               model := r.model,
               error := r.error,
               query := some query,
               timestamp := some now,
               total_documents_searched :=
                 some (get_user_document_count store user_id) }, true)
      | .error e =>
        (.error ⟨500, "Failed to process query: " ++ e⟩, true)

/-- RAGService.delete_document (lines 168-200): delegate to the vector store
delete; a false result becomes a 404, a true result a confirmation dict.
Returns the updated store alongside the outcome. -/
def rag_delete_document (store : List Entry) (document_id user_id : String) :
    List Entry × Except HTTPError DeleteResult :=
  let r := delete_document store document_id user_id
  if r.2 then
    (r.1, .ok { document_id := document_id,
                status := "deleted",
                message := "Document successfully removed from knowledge base" })
  else
    (r.1, .error ⟨404,
      "Document not found or you don" ++ apo ++ "t have permission to delete it"⟩)

/- ============ filename extension (rag_service.py / document_processor.py) ============ -/

/-- The 26 upper/lower ASCII letter pairs. -/
def upperLowerTable : List (Char × Char) :=
  [('A', 'a'), ('B', 'b'), ('C', 'c'), ('D', 'd'), ('E', 'e'), ('F', 'f'),
   ('G', 'g'), ('H', 'h'), ('I', 'i'), ('J', 'j'), ('K', 'k'), ('L', 'l'),
   ('M', 'm'), ('N', 'n'), ('O', 'o'), ('P', 'p'), ('Q', 'q'), ('R', 'r'),
   ('S', 's'), ('T', 't'), ('U', 'u'), ('V', 'v'), ('W', 'w'), ('X', 'x'),
   ('Y', 'y'), ('Z', 'z')]

/-- ASCII model of Python str.lower on one character. -/
def lowerChar (c : Char) : Char :=
  match upperLowerTable.lookup c with
  | some l => l
  | none => c

/-- Python str.split applied with separator a dot: every dot is a boundary
and empty pieces are kept, so the result is always non-empty. -/
def splitOnDot : List Char → List (List Char)
  | [] => [[]]
  | c :: rest =>
    if c = '.' then [] :: splitOnDot rest
    else
      match splitOnDot rest with
      | [] => [[c]]
      | h :: t => (c :: h) :: t

/-- The declared format of a filename, as both RAGService.ingest_document
(line 55) and DocumentProcessor.process_document (line 44) compute it:
filename.lower().split(dot)[-1]. -/
def file_extension (filename : String) : String :=
  String.mk ((splitOnDot (filename.data.map lowerChar)).getLastD [])

/-- The allow-set check of RAGService.ingest_document lines 54-57. -/
def allowed_extensions : List String := ["pdf", "docx", "doc", "txt"]

/-- True when ingest_document accepts the filename. -/
def ingest_extension_allowed (filename : String) : Bool :=
  allowed_extensions.contains (file_extension filename)

/-- The extraction formats of process_document. -/
inductive FileFormat where
  | pdf
  | docx
  | txt
deriving DecidableEq, Repr

/-- The dispatch of DocumentProcessor.process_document lines 46-53; none
models the ValueError for an unsupported type. -/
def extract_format (filename : String) : Option FileFormat :=
  let ext := file_extension filename
  if ext = "pdf" then some .pdf
  else if ext = "docx" ∨ ext = "doc" then some .docx
  else if ext = "txt" then some .txt
  else none

/-- Spec-side description of the declared format, written from the claim's
words: the substring after the last dot, or the whole string when no dot
occurs.  Compared with file_extension, which is translated from the source. -/
def afterLastDot : List Char → List Char
  | [] => []
  | c :: rest =>
    if rest.contains '.' then afterLastDot rest
    else if c = '.' then rest
    else c :: afterLastDot rest

/- ===================== concrete instances ===================== -/

/-- Three sentences of 16, 14 and 24 characters; under the
character-counting tokenizer with budgets max 30 / overlap 14 the second
emitted chunk is an overlap window plus a trigger sentence totalling 38. -/
def exText : String := "aaaaaaaaaaaaaaa. bbbbbbbbbbbbb. cccccccccccccccccccccccc"

/-- A provider whose call always fails. -/
def failing_provider : String → String → Except String String :=
  fun _ _ => Except.error "boom"

/-- A client whose Together AI provider is configured and failing. -/
def fail_client : LLMClient := ⟨some failing_provider, none⟩

/-- A client with no provider configured. -/
def no_provider_client : LLMClient := ⟨none, none⟩

/-- A constant embedding distance. -/
def dist0 : String → String → Int := fun _ _ => 0

/-- A row owned by alice. -/
def entryAlice : Entry :=
  { id := "id1", text := "alpha text", user_id := "alice",
    document_id := "doc1", filename := "a.txt" }

/-- A row owned by bob. -/
def entryBob : Entry :=
  { id := "id2", text := "bravo text", user_id := "bob",
    document_id := "doc2", filename := "b.txt" }

/- ===================== helper lemmas: chunker ===================== -/

theorem sumTok_cons (tok : String → Nat) (s : String) (l : List String) :
    sumTok tok (s :: l) = tok s + sumTok tok l := by
  simp [sumTok]

theorem sumTok_append (tok : String → Nat) (l₁ l₂ : List String) :
    sumTok tok (l₁ ++ l₂) = sumTok tok l₁ + sumTok tok l₂ := by
  simp [sumTok]

theorem overlap_walk_spec (tok : String → Nat) (budget : Nat) :
    ∀ (l acc : List String) (accT : Nat),
      accT = sumTok tok acc → accT ≤ budget →
      (overlap_walk tok budget l acc accT).2 =
          sumTok tok (overlap_walk tok budget l acc accT).1 ∧
        (overlap_walk tok budget l acc accT).2 ≤ budget := by
  intro l
  induction l with
  | nil => intro acc accT h1 h2; exact ⟨h1, h2⟩
  | cons s rest ih =>
    intro acc accT h1 h2
    simp only [overlap_walk]
    by_cases hb : accT + tok s ≤ budget
    · rw [if_pos hb]
      exact ih (s :: acc) (accT + tok s)
        (by rw [sumTok_cons, h1, Nat.add_comm]) hb
    · rw [if_neg hb]
      exact ⟨h1, h2⟩

theorem chunk_loop_ov_bound (tok : String → Nat) (m o : Nat) :
    ∀ (rest : List String) (chunks : List SChunk) (cur : SChunk) (curT : Nat),
      (∀ c ∈ chunks, sumTok tok c.ov ≤ o) →
      sumTok tok cur.ov ≤ o →
      ∀ c ∈ chunk_loop tok m o rest chunks cur curT, sumTok tok c.ov ≤ o := by
  intro rest
  induction rest with
  | nil =>
    intro chunks cur curT hch hcur c hc
    simp only [chunk_loop] at hc
    split at hc
    · exact hch c hc
    · rcases List.mem_append.1 hc with h | h
      · exact hch c h
      · rw [List.mem_singleton] at h; subst h; exact hcur
  | cons s rest ih =>
    intro chunks cur curT hch hcur c hc
    simp only [chunk_loop] at hc
    split at hc
    · refine ih _ _ _ ?_ ?_ c hc
      · intro c' hc'
        rcases List.mem_append.1 hc' with h | h
        · exact hch c' h
        · rw [List.mem_singleton] at h; subst h; exact hcur
      · have hw := overlap_walk_spec tok o cur.sentences.reverse [] 0 rfl
          (Nat.zero_le o)
        show sumTok tok (overlap_walk tok o cur.sentences.reverse [] 0).1 ≤ o
        exact hw.1 ▸ hw.2
    · exact ih chunks ⟨cur.ov, cur.fresh ++ [s]⟩ (curT + tok s) hch hcur c hc

theorem chunk_loop_budget (tok : String → Nat) (m o : Nat) :
    ∀ (rest : List String) (chunks : List SChunk) (cur : SChunk) (curT : Nat),
      curT = sumTok tok cur.sentences →
      (sumTok tok cur.sentences ≤ m ∨ sumTok tok cur.sentences.dropLast ≤ o) →
      (∀ c ∈ chunks,
        sumTok tok c.sentences ≤ m ∨ sumTok tok c.sentences.dropLast ≤ o) →
      ∀ c ∈ chunk_loop tok m o rest chunks cur curT,
        sumTok tok c.sentences ≤ m ∨ sumTok tok c.sentences.dropLast ≤ o := by
  intro rest
  induction rest with
  | nil =>
    intro chunks cur curT h1 hcur hch c hc
    simp only [chunk_loop] at hc
    split at hc
    · exact hch c hc
    · rcases List.mem_append.1 hc with h | h
      · exact hch c h
      · rw [List.mem_singleton] at h; subst h; exact hcur
  | cons s rest ih =>
    intro chunks cur curT h1 hcur hch c hc
    simp only [chunk_loop] at hc
    split at hc
    next hcond =>
      have hw := overlap_walk_spec tok o cur.sentences.reverse [] 0 rfl
        (Nat.zero_le o)
      refine ih _ _ _ ?_ ?_ ?_ c hc
      · show (overlap_walk tok o cur.sentences.reverse [] 0).2 + tok s =
          sumTok tok ((overlap_walk tok o cur.sentences.reverse [] 0).1 ++ [s])
        rw [sumTok_append, ← hw.1, sumTok_cons]
        simp [sumTok]
      · right
        show sumTok tok
          ((overlap_walk tok o cur.sentences.reverse [] 0).1 ++ [s]).dropLast ≤ o
        rw [List.dropLast_concat, ← hw.1]
        exact hw.2
      · intro c' hc'
        rcases List.mem_append.1 hc' with h | h
        · exact hch c' h
        · rw [List.mem_singleton] at h; subst h; exact hcur
    next hcond =>
      have hcond' : m < curT + tok s → cur.sentences = [] := by
        intro hlt
        by_contra hne
        exact hcond (by simp [hlt, List.isEmpty_iff, hne])
      refine ih _ _ _ ?_ ?_ hch c hc
      · show curT + tok s = sumTok tok (cur.ov ++ (cur.fresh ++ [s]))
        rw [h1]
        show sumTok tok cur.sentences + tok s = _
        rw [sumTok_append, sumTok_append, sumTok_cons]
        show sumTok tok (cur.ov ++ cur.fresh) + tok s = _
        rw [sumTok_append]
        simp [sumTok, Nat.add_assoc]
      · by_cases hle : curT + tok s ≤ m
        · left
          show sumTok tok (cur.ov ++ (cur.fresh ++ [s])) ≤ m
          have : sumTok tok (cur.ov ++ (cur.fresh ++ [s])) = curT + tok s := by
            rw [h1]
            show _ = sumTok tok (cur.ov ++ cur.fresh) + tok s
            rw [sumTok_append, sumTok_append, sumTok_cons, sumTok_append]
            simp [sumTok, Nat.add_assoc]
          rw [this]; exact hle
        · have hnil : cur.sentences = [] := hcond' (Nat.lt_of_not_le hle)
          have hov : cur.ov = [] := (List.append_eq_nil.1 hnil).1
          have hfr : cur.fresh = [] := (List.append_eq_nil.1 hnil).2
          right
          show sumTok tok ((cur.ov ++ (cur.fresh ++ [s])).dropLast) ≤ o
          rw [hov, hfr]
          simp [sumTok]

theorem chunk_loop_fresh_join (tok : String → Nat) (m o : Nat) :
    ∀ (rest : List String) (chunks : List SChunk) (cur : SChunk) (curT : Nat),
      ((chunk_loop tok m o rest chunks cur curT).map SChunk.fresh).flatten =
        (chunks.map SChunk.fresh).flatten ++ cur.fresh ++ rest := by
  intro rest
  induction rest with
  | nil =>
    intro chunks cur curT
    simp only [chunk_loop]
    split
    next h =>
      have h2 : cur.ov ++ cur.fresh = [] := by
        simpa [SChunk.sentences, List.isEmpty_iff] using h
      have : cur.fresh = [] := (List.append_eq_nil.1 h2).2
      simp [this]
    next h => simp
  | cons s rest ih =>
    intro chunks cur curT
    simp only [chunk_loop]
    split
    next h =>
      rw [ih]
      simp
    next h =>
      rw [ih]
      simp

theorem chunk_text_loop_eq (tok : String → Nat) (m o : Nat) :
    ∀ (rest : List String) (chunks : List SChunk) (cur : SChunk) (curT : Nat),
      chunk_text_loop tok m o rest (chunks.map (fun c => joinSp c.sentences))
          cur.sentences curT =
        (chunk_loop tok m o rest chunks cur curT).map
          (fun c => joinSp c.sentences) := by
  intro rest
  induction rest with
  | nil =>
    intro chunks cur curT
    simp only [chunk_loop, chunk_text_loop]
    cases h : cur.sentences.isEmpty with
    | true => simp [h]
    | false => simp [h]
  | cons s rest ih =>
    intro chunks cur curT
    simp only [chunk_loop, chunk_text_loop]
    by_cases h : (m < curT + tok s && !cur.sentences.isEmpty) = true
    · rw [if_pos h, if_pos h]
      have h2 := ih (chunks ++ [cur])
        ⟨(overlap_walk tok o cur.sentences.reverse [] 0).1, [s]⟩
        ((overlap_walk tok o cur.sentences.reverse [] 0).2 + tok s)
      simpa [List.map_append, SChunk.sentences] using h2
    · rw [if_neg h, if_neg h]
      have h2 := ih chunks ⟨cur.ov, cur.fresh ++ [s]⟩ (curT + tok s)
      simpa [SChunk.sentences, List.append_assoc] using h2

theorem chunk_text_eq (tok : String → Nat) (m o : Nat) (text : String) :
    chunk_text tok m o text =
      (chunk_sentences tok m o (split_into_sentences text)).map
        (fun c => joinSp c.sentences) := by
  simpa using chunk_text_loop_eq tok m o (split_into_sentences text) [] ⟨[], []⟩ 0

/- ===================== claims C1, C4, C5 ===================== -/

/-- Claim C1, as stated: every chunk produced by the chunker has cumulative
token count at most max_chunk_size, except a chunk consisting of exactly one
sentence whose own token count already exceeds the budget.  This is refuted:
with a character-counting tokenizer, budgets 30/14 and the three-sentence
text exText, the second chunk is an overlap window plus a trigger sentence,
holds two sentences, and totals 38 tokens. -/
theorem C1_counterexample :
    ¬ (∀ c ∈ chunk_sentences String.length 30 14 (split_into_sentences exText),
        sumTok String.length c.sentences ≤ 30 ∨
        (c.sentences.length = 1 ∧ 30 < sumTok String.length c.sentences)) := by
  decide

/-- Claim C1, amended: every chunk produced by the chunker either has
cumulative token count at most max_chunk_size, or all its sentences except
the last one together stay within the overlap budget (which covers both the
single oversized sentence and a chunk whose overlap window plus triggering
sentence already exceed the budget). -/
theorem C1_chunk_budget (tok : String → Nat) (max_chunk_size chunk_overlap : Nat)
    (text : String) (c : SChunk)
    (hc : c ∈ chunk_sentences tok max_chunk_size chunk_overlap
      (split_into_sentences text)) :
    sumTok tok c.sentences ≤ max_chunk_size ∨
      sumTok tok c.sentences.dropLast ≤ chunk_overlap := by
  refine chunk_loop_budget tok max_chunk_size chunk_overlap
    (split_into_sentences text) [] ⟨[], []⟩ 0 rfl ?_ ?_ c hc
  · left; exact Nat.zero_le _
  · intro c' hc'; cases hc'

/-- Witness for C1_chunk_budget at the concrete counterexample input. -/
theorem C1_chunk_budget_witness :
    sumTok String.length
        (SChunk.mk ["bbbbbbbbbbbbb."] ["cccccccccccccccccccccccc"]).sentences ≤ 30 ∨
      sumTok String.length
        (SChunk.mk ["bbbbbbbbbbbbb."] ["cccccccccccccccccccccccc"]).sentences.dropLast ≤ 14 :=
  C1_chunk_budget String.length 30 14 exText
    ⟨["bbbbbbbbbbbbb."], ["cccccccccccccccccccccccc"]⟩ (by decide)

/-- Claim C4: for every chunk except the first of a document, the overlap
window carried over from the just-closed predecessor chunk has cumulative
token count at most chunk_overlap. -/
theorem C4_overlap_budget (tok : String → Nat) (max_chunk_size chunk_overlap : Nat)
    (text : String) (c : SChunk)
    (hc : c ∈ (chunk_sentences tok max_chunk_size chunk_overlap
      (split_into_sentences text)).drop 1) :
    sumTok tok c.ov ≤ chunk_overlap := by
  refine chunk_loop_ov_bound tok max_chunk_size chunk_overlap
    (split_into_sentences text) [] ⟨[], []⟩ 0 ?_ ?_ c (List.mem_of_mem_drop hc)
  · intro c' hc'; cases hc'
  · exact Nat.zero_le _

/-- Witness for C4_overlap_budget at the concrete example input. -/
theorem C4_overlap_budget_witness :
    sumTok String.length
      (SChunk.mk ["bbbbbbbbbbbbb."] ["cccccccccccccccccccccccc"]).ov ≤ 14 :=
  C4_overlap_budget String.length 30 14 exText
    ⟨["bbbbbbbbbbbbb."], ["cccccccccccccccccccccccc"]⟩ (by decide)

/-- Claim C5: dropping each chunk's overlap window and concatenating the
chunks' remaining (fresh) sentences in chunk order reconstructs exactly the
sentence sequence produced by sentence-splitting the text: no sentence
dropped, none duplicated outside the overlap windows, none reordered. -/
theorem C5_reconstruction (tok : String → Nat) (max_chunk_size chunk_overlap : Nat)
    (text : String) :
    ((chunk_sentences tok max_chunk_size chunk_overlap
        (split_into_sentences text)).map SChunk.fresh).flatten =
      split_into_sentences text := by
  have := chunk_loop_fresh_join tok max_chunk_size chunk_overlap
    (split_into_sentences text) [] ⟨[], []⟩ 0
  simpa using this

/- ===================== claim C9 ===================== -/

/-- Claim C9, as stated: splitting keeps every fragment of length 10 or
more.  This is refuted: the ten-character text abcdefghij is a single raw
fragment, its stripped length is exactly 10, yet _split_into_sentences
discards it because the source keeps only fragments of length strictly
greater than 10. -/
theorem C9_counterexample :
    split_into_sentences "abcdefghij" = [] ∧
      raw_split false ("abcdefghij" : String).data [] =
        [("abcdefghij" : String).data] ∧
      stripWs ("abcdefghij" : String).data = ("abcdefghij" : String).data ∧
      ("abcdefghij" : String).length = 10 := by
  decide

/-- Claim C9, amended: sentence splitting breaks the text exactly after `.`,
`!` or `?` followed by whitespace, and a fragment is kept if and only if its
stripped length is strictly greater than 10 characters (length at least 11);
fragments of stripped length 10 or fewer are discarded. -/
theorem C9_split_membership (text : String) (s : String) :
    s ∈ split_into_sentences text ↔
      ∃ cs ∈ raw_split false text.data [],
        s = String.mk (stripWs cs) ∧ 10 < (stripWs cs).length := by
  simp only [split_into_sentences, List.mem_map, List.mem_filter]
  constructor
  · rintro ⟨cs', ⟨⟨cs, hcs, rfl⟩, hlen⟩, rfl⟩
    exact ⟨cs, hcs, rfl, by simpa using hlen⟩
  · rintro ⟨cs, hcs, rfl, hlen⟩
    exact ⟨stripWs cs, ⟨⟨cs, hcs, rfl⟩, by simpa using hlen⟩, rfl⟩

/-- Witness for C9_split_membership: the twelve-character stripped fragment
of a concrete text is kept. -/
theorem C9_split_membership_witness :
    "hello world." ∈ split_into_sentences "hello world. ok" :=
  (C9_split_membership "hello world. ok" "hello world.").mpr
    ⟨("hello world." : String).data, by decide, by decide, by decide⟩

/- ===================== helper lemmas: vector store ===================== -/

theorem mem_insertByDist (dist : String → String → Int) (q : String) (e : Entry) :
    ∀ (l : List Entry) (a : Entry),
      a ∈ insertByDist dist q e l ↔ a = e ∨ a ∈ l := by
  intro l
  induction l with
  | nil => intro a; simp [insertByDist]
  | cons f t ih =>
    intro a
    simp only [insertByDist]
    by_cases hd : dist q e.text ≤ dist q f.text
    · rw [if_pos hd]; simp [List.mem_cons]
    · rw [if_neg hd]
      simp only [List.mem_cons, ih]
      tauto

theorem mem_rankByDist (dist : String → String → Int) (q : String) :
    ∀ (l : List Entry) (a : Entry), a ∈ rankByDist dist q l ↔ a ∈ l := by
  intro l
  induction l with
  | nil => intro a; simp [rankByDist]
  | cons f t ih =>
    intro a
    show a ∈ insertByDist dist q f (rankByDist dist q t) ↔ _
    rw [mem_insertByDist]
    simp [List.mem_cons, ih]

theorem search_similar_owner (dist : String → String → Int) (store : List Entry)
    (q uid : String) (n : Nat) (dids : Option (List String)) (h : SearchHit)
    (hm : h ∈ search_similar dist store q uid n dids) :
    h.entry.user_id = uid := by
  simp only [search_similar, List.mem_map] at hm
  obtain ⟨e, he, rfl⟩ := hm
  have h1 : e ∈ rankByDist dist q (store.filter (whereMatch uid dids)) :=
    List.mem_of_mem_take he
  rw [mem_rankByDist] at h1
  have h2 := (List.mem_filter.1 h1).2
  simp only [whereMatch, Bool.and_eq_true, beq_iff_eq] at h2
  exact h2.1

theorem nodup_id_inj :
    ∀ (l : List Entry), (l.map Entry.id).Nodup →
      ∀ a ∈ l, ∀ b ∈ l, a.id = b.id → a = b := by
  intro l
  induction l with
  | nil => intro _ a ha; cases ha
  | cons f t ih =>
    intro hnd a ha b hb hab
    rw [List.map_cons, List.nodup_cons] at hnd
    rcases List.mem_cons.1 ha with rfl | ha' <;>
      rcases List.mem_cons.1 hb with rfl | hb'
    · rfl
    · exact absurd (by rw [hab]; exact List.mem_map_of_mem Entry.id hb') hnd.1
    · exact absurd (by rw [← hab]; exact List.mem_map_of_mem Entry.id ha') hnd.1
    · exact ih hnd.2 a ha' b hb' hab

/- ===================== claim C2 ===================== -/

/-- Claim C2: search invoked for an owner returns only that owner's
passages, for every index state, query, limit and document filter; and
delete invoked for an owner never removes another owner's passages (under
distinct chunk ids, which add_documents guarantees by construction). -/
theorem C2_owner_isolation :
    (∀ (dist : String → String → Int) (store : List Entry) (q uid : String)
        (n : Nat) (dids : Option (List String)) (h : SearchHit),
      h ∈ search_similar dist store q uid n dids → h.entry.user_id = uid) ∧
    (∀ (store : List Entry) (did uid : String) (e : Entry),
      (store.map Entry.id).Nodup → e ∈ store → e.user_id ≠ uid →
      e ∈ (delete_document store did uid).1) := by
  constructor
  · exact search_similar_owner
  · intro store did uid e hnd he hu
    simp only [delete_document]
    split
    next => exact he
    next =>
      refine List.mem_filter.2 ⟨he, ?_⟩
      have hni : e.id ∉ (store.filter
          (fun x => x.document_id == did && x.user_id == uid)).map Entry.id := by
        intro hmem
        rw [List.mem_map] at hmem
        obtain ⟨f, hf, hfe⟩ := hmem
        have hf2 := List.mem_filter.1 hf
        have hfu : f.user_id = uid := by
          have h3 := hf2.2
          simp only [Bool.and_eq_true, beq_iff_eq] at h3
          exact h3.2
        have hfeq : f = e := nodup_id_inj store hnd f hf2.1 e he hfe
        exact hu (hfeq ▸ hfu)
      simpa [List.contains] using hni

/-- Witness for C2_owner_isolation: a returned hit on a one-row index is
owned by the caller, and a row owned by bob survives a delete issued by
alice. -/
theorem C2_owner_isolation_witness :
    (SearchHit.mk entryAlice 1).entry.user_id = "alice" ∧
      entryBob ∈ (delete_document [entryBob] "doc2" "alice").1 :=
  ⟨C2_owner_isolation.1 dist0 [entryAlice] "x" "alice" 5 none
      ⟨entryAlice, 1⟩ (by decide),
    C2_owner_isolation.2 [entryBob] "doc2" "alice" entryBob
      (by decide) (by decide) (by decide)⟩

/- ===================== claim C8 ===================== -/

/-- Claim C8: delete_document removes every passage matching both
document_id and user_id and returns true exactly when at least one passage
was deleted; a false result leaves the store untouched (unknown document or
foreign owner), and the orchestrator translates false into a 404
not-found/not-owned error and true into a deletion confirmation. -/
theorem C8_delete_contract :
    ∀ (store : List Entry) (did uid : String),
      ((delete_document store did uid).2 = true ↔
        ∃ e ∈ store, e.document_id = did ∧ e.user_id = uid) ∧
      ((delete_document store did uid).2 = false →
        (delete_document store did uid).1 = store) ∧
      (∀ e ∈ store, e.document_id = did → e.user_id = uid →
        e ∉ (delete_document store did uid).1) ∧
      ((∃ e ∈ store, e.document_id = did ∧ e.user_id = uid) →
        (rag_delete_document store did uid).2 =
          .ok ⟨did, "deleted",
            "Document successfully removed from knowledge base"⟩) ∧
      (¬ (∃ e ∈ store, e.document_id = did ∧ e.user_id = uid) →
        (rag_delete_document store did uid).2 =
          .error ⟨404,
            "Document not found or you don" ++ apo ++
              "t have permission to delete it"⟩) := by
  intro store did uid
  have hex : ¬ (store.filter
        (fun x => x.document_id == did && x.user_id == uid)).isEmpty = true ↔
      ∃ e ∈ store, e.document_id = did ∧ e.user_id = uid := by
    rw [List.isEmpty_iff]
    constructor
    · intro hne
      obtain ⟨e, he⟩ := List.exists_mem_of_ne_nil _ hne
      have h2 := List.mem_filter.1 he
      have h3 := h2.2
      simp only [Bool.and_eq_true, beq_iff_eq] at h3
      exact ⟨e, h2.1, h3.1, h3.2⟩
    · rintro ⟨e, he, hd, hu⟩ hnil
      have hmem : e ∈ store.filter
          (fun x => x.document_id == did && x.user_id == uid) :=
        List.mem_filter.2 ⟨he, by simp [hd, hu]⟩
      rw [hnil] at hmem
      cases hmem
  by_cases hie : (store.filter
      (fun x => x.document_id == did && x.user_id == uid)).isEmpty = true
  · have hnoex := (not_iff_not.2 hex).1 (not_not.2 hie)
    have hdel : delete_document store did uid = (store, false) := by
      simp only [delete_document]
      rw [if_pos hie]
    have hrag : (rag_delete_document store did uid).2 =
        .error ⟨404, "Document not found or you don" ++ apo ++
          "t have permission to delete it"⟩ := by
      simp only [rag_delete_document, hdel]
      rfl
    refine ⟨?_, ?_, ?_, ?_, ?_⟩
    · rw [hdel]
      simp only [Bool.false_eq_true, false_iff]
      exact hnoex
    · intro _; rw [hdel]
    · intro e he hd hu
      exact absurd ⟨e, he, hd, hu⟩ hnoex
    · intro hx
      exact absurd hx hnoex
    · intro _; exact hrag
  · have hx := hex.1 hie
    have hdel : delete_document store did uid =
        (store.filter (fun e =>
          !(((store.filter (fun x => x.document_id == did && x.user_id == uid)).map
              Entry.id).contains e.id)), true) := by
      simp only [delete_document]
      rw [if_neg hie]
    have hrag : (rag_delete_document store did uid).2 =
        .ok ⟨did, "deleted",
          "Document successfully removed from knowledge base"⟩ := by
      simp only [rag_delete_document, hdel]
      rfl
    refine ⟨?_, ?_, ?_, ?_, ?_⟩
    · rw [hdel]
      simp only [true_iff]
      exact hx
    · intro hfalse
      rw [hdel] at hfalse
      cases hfalse
    · intro e he hd hu hmem
      rw [hdel] at hmem
      have h2 := (List.mem_filter.1 hmem).2
      have hin : e ∈ store.filter
          (fun x => x.document_id == did && x.user_id == uid) :=
        List.mem_filter.2 ⟨he, by simp [hd, hu]⟩
      have : e.id ∈ (store.filter
          (fun x => x.document_id == did && x.user_id == uid)).map Entry.id :=
        List.mem_map_of_mem Entry.id hin
      simp only [Bool.not_eq_true'] at h2
      rw [List.contains] at h2
      have := (List.elem_iff).2 this
      rw [h2] at this
      cases this
    · intro _; exact hrag
    · intro hnx; exact absurd hx hnx

/-- Witness for C8_delete_contract on a concrete one-row store: deleting the
row's document as its owner reports true and confirms, while alice deleting
bob's document yields the 404 error. -/
theorem C8_delete_contract_witness :
    (delete_document [entryBob] "doc2" "bob").2 = true ∧
      (rag_delete_document [entryBob] "doc2" "alice").2 =
        .error ⟨404, "Document not found or you don" ++ apo ++
          "t have permission to delete it"⟩ :=
  ⟨(C8_delete_contract [entryBob] "doc2" "bob").1.mpr
      ⟨entryBob, by decide, by decide, by decide⟩,
    (C8_delete_contract [entryBob] "doc2" "alice").2.2.2.2 (by decide)⟩

/- ===================== claim C3 ===================== -/

/-- Claim C3, as stated: with a configured provider whose call fails,
generate_response propagates the error to its caller.  This is refuted: at
a client whose Together AI provider fails with the message boom, the result
is not the propagated error but an answer-shaped dict carrying the apology
text and the error message. -/
theorem C3_counterexample :
    generate_response fail_client "q" [] [] ≠ Except.error "boom" ∧
      generate_response fail_client "q" [] [] =
        Except.ok { response := apology_message, sources := [],
                    context_used := 0, model := none, error := some "boom" } :=
  ⟨by decide, by decide⟩

/-- Claim C3, amended: whenever the invoked provider's call fails, the
try/except of generate_response catches the failure and returns an
error-marked result (apology text, no sources, zero context, no model key,
error message recorded) instead of propagating the exception; only the
inner provider helper re-raises. -/
theorem C3_provider_error_swallowed :
    (∀ (c : LLMClient) (q : String) (chunks : List SearchHit)
        (hist : List ChatMsg)
        (call : String → String → Except String String) (e : String),
      c.together_client = some call →
      call create_system_prompt
        (create_user_prompt q (build_context chunks) hist) = .error e →
      generate_response c q chunks hist =
        .ok { response := apology_message, sources := [], context_used := 0,
              model := none, error := some e }) ∧
    (∀ (c : LLMClient) (q : String) (chunks : List SearchHit)
        (hist : List ChatMsg)
        (call : String → String → Except String String) (e : String),
      c.together_client = none → c.openai_client = some call →
      call create_system_prompt
        (create_user_prompt q (build_context chunks) hist) = .error e →
      generate_response c q chunks hist =
        .ok { response := apology_message, sources := [], context_used := 0,
              model := none, error := some e }) := by
  constructor
  · intro c q chunks hist call e hT hcall
    simp only [generate_response, hT, generate_together_response, hcall]
  · intro c q chunks hist call e hT hO hcall
    simp only [generate_response, hT, hO, generate_openai_response, hcall]

/-- Witness for C3_provider_error_swallowed at the concrete failing client. -/
theorem C3_provider_error_swallowed_witness :
    generate_response fail_client "q2" [] [] =
      .ok { response := apology_message, sources := [], context_used := 0,
            model := none, error := some "boom" } :=
  C3_provider_error_swallowed.1 fail_client "q2" [] [] failing_provider "boom"
    rfl rfl

/- ===================== claim C7 ===================== -/

/-- Claim C7: with no provider configured, generate_response never errors
and returns the deterministic fallback: the no-documents sentence on zero
hits, otherwise the preview built from at most the first 2 hits followed by
the configuration notice; in both cases the reported model is the literal
fallback marker. -/
theorem C7_no_provider_fallback (c : LLMClient) (q : String)
    (chunks : List SearchHit) (hist : List ChatMsg)
    (hT : c.together_client = none) (hO : c.openai_client = none) :
    generate_response c q chunks hist =
      .ok { response := generate_fallback_response q chunks,
            sources := extract_sources chunks,
            context_used := chunks.length,
            model := some "fallback",
            error := none } ∧
      (chunks = [] → generate_fallback_response q chunks = no_docs_message) ∧
      (chunks ≠ [] →
        generate_fallback_response q chunks =
          "I found " ++ toString chunks.length ++
          " relevant document(s) for your query. Here" ++ apo ++
          "s what I found:" ++ context_preview chunks ++ api_note) := by
  refine ⟨?_, ?_, ?_⟩
  · simp only [generate_response, hT, hO, get_active_model, Option.isSome_none]
    rfl
  · intro h
    simp [generate_fallback_response, h]
  · intro h
    simp only [generate_fallback_response]
    rw [if_neg (by simpa [List.isEmpty_iff] using h)]

/-- Witness for C7_no_provider_fallback at the no-provider client with zero
hits. -/
theorem C7_no_provider_fallback_witness :
    generate_response no_provider_client "q" [] [] =
      .ok { response := generate_fallback_response "q" [],
            sources := extract_sources [],
            context_used := 0,
            model := some "fallback",
            error := none } :=
  (C7_no_provider_fallback no_provider_client "q" [] [] rfl rfl).1

/- ===================== claim C6 ===================== -/

/-- Claim C6: for a non-empty query whose search returns zero hits, the
orchestrator returns the no-relevant-information result with context_used
zero and a non-empty suggestions list, and the Answer Generator is never
invoked (the invocation flag is false and the result does not depend on the
client). -/
theorem C6_zero_hit_query (dist : String → String → Int) (store : List Entry)
    (client : LLMClient) (now : String) (query user_id : String)
    (document_ids : Option (List String)) (chat_history : List ChatMsg)
    (hq : strip_str query ≠ "")
    (hs : search_similar dist store query user_id 5 document_ids = []) :
    query_documents dist store client now query user_id document_ids
        chat_history =
      (.ok { response := no_info_response,
             sources := [],
             context_used := 0,
             suggestions := query_suggestions,
             model := none, error := none, query := none,
             timestamp := none, total_documents_searched := none }, false) ∧
      query_suggestions ≠ [] := by
  constructor
  · simp only [query_documents, hs]
    rw [if_neg hq]
    rfl
  · decide

/-- Witness for C6_zero_hit_query on an empty index. -/
theorem C6_zero_hit_query_witness :
    query_documents dist0 [] no_provider_client "t0" "hello" "alice" none [] =
      (.ok { response := no_info_response,
             sources := [],
             context_used := 0,
             suggestions := query_suggestions,
             model := none, error := none, query := none,
             timestamp := none, total_documents_searched := none }, false) :=
  (C6_zero_hit_query dist0 [] no_provider_client "t0" "hello" "alice" none []
    (by decide) (by decide)).1

/- ===================== helper lemmas: file extension ===================== -/

theorem contains_eq_true_of_mem {c : Char} {l : List Char} (h : c ∈ l) :
    l.contains c = true := by
  rw [List.contains]
  exact List.elem_iff.2 h

theorem contains_eq_false_of_not_mem {c : Char} {l : List Char} (h : c ∉ l) :
    l.contains c = false := by
  rw [List.contains]
  by_contra hb
  rw [Bool.not_eq_false] at hb
  exact h (List.elem_iff.1 hb)

theorem getLastD_default_irrel {α : Type} (l : List α) (d d' : α) (h : l ≠ []) :
    l.getLastD d = l.getLastD d' := by
  cases l with
  | nil => exact absurd rfl h
  | cons a t => rw [List.getLastD_cons, List.getLastD_cons]

theorem lookup_pair_mem :
    ∀ (l : List (Char × Char)) (a b : Char), l.lookup a = some b → (a, b) ∈ l := by
  intro l
  induction l with
  | nil => intro a b h; simp [List.lookup] at h
  | cons p t ih =>
    intro a b h
    obtain ⟨k, v⟩ := p
    rw [List.lookup_cons] at h
    split at h
    next hk =>
      rw [Option.some.injEq] at h
      have hak : a = k := eq_of_beq hk
      exact List.mem_cons.2 (Or.inl (by rw [hak, h]))
    next hk =>
      exact List.mem_cons.2 (Or.inr (ih a b h))

theorem lowerChar_ne_dot (c : Char) (h : c ≠ '.') : lowerChar c ≠ '.' := by
  unfold lowerChar
  cases hl : upperLowerTable.lookup c with
  | none => exact h
  | some l =>
    have hm := lookup_pair_mem upperLowerTable c l hl
    have hall : ∀ p ∈ upperLowerTable, p.2 ≠ '.' := by decide
    exact hall (c, l) hm

theorem map_lowerChar_no_dot (cs : List Char) (h : '.' ∉ cs) :
    '.' ∉ cs.map lowerChar := by
  intro hm
  rw [List.mem_map] at hm
  obtain ⟨c, hc, he⟩ := hm
  by_cases hcd : c = '.'
  · exact h (hcd ▸ hc)
  · exact lowerChar_ne_dot c hcd he

theorem splitOnDot_ne_nil : ∀ cs : List Char, splitOnDot cs ≠ [] := by
  intro cs
  cases cs with
  | nil => simp [splitOnDot]
  | cons c rest =>
    simp only [splitOnDot]
    by_cases h : c = '.'
    · rw [if_pos h]; simp
    · rw [if_neg h]
      cases hs : splitOnDot rest <;> simp

theorem splitOnDot_no_dot : ∀ cs : List Char, '.' ∉ cs → splitOnDot cs = [cs] := by
  intro cs
  induction cs with
  | nil => intro _; rfl
  | cons c rest ih =>
    intro h
    have hc : c ≠ '.' := fun he => h (he ▸ List.mem_cons_self c rest)
    have hrest : '.' ∉ rest := fun hm => h (List.mem_cons_of_mem c hm)
    simp only [splitOnDot]
    rw [if_neg hc, ih hrest]

theorem splitOnDot_dot_mem : ∀ cs : List Char, '.' ∈ cs →
    ∃ h t, splitOnDot cs = h :: t ∧ t ≠ [] := by
  intro cs
  induction cs with
  | nil => intro h; cases h
  | cons c rest ih =>
    intro hm
    simp only [splitOnDot]
    by_cases hc : c = '.'
    · rw [if_pos hc]
      exact ⟨[], splitOnDot rest, rfl, splitOnDot_ne_nil rest⟩
    · rw [if_neg hc]
      have hrest : '.' ∈ rest := by
        rcases List.mem_cons.1 hm with he | hm'
        · exact absurd he.symm hc
        · exact hm'
      obtain ⟨h, t, hs, ht⟩ := ih hrest
      rw [hs]
      exact ⟨c :: h, t, rfl, ht⟩

theorem afterLastDot_no_dot : ∀ cs : List Char, '.' ∉ cs → afterLastDot cs = cs := by
  intro cs
  induction cs with
  | nil => intro _; rfl
  | cons c rest ih =>
    intro h
    have hc : c ≠ '.' := fun he => h (he ▸ List.mem_cons_self c rest)
    have hrest : '.' ∉ rest := fun hm => h (List.mem_cons_of_mem c hm)
    simp only [afterLastDot]
    rw [contains_eq_false_of_not_mem hrest]
    simp [hc, ih hrest]

theorem splitOnDot_getLastD : ∀ (cs : List Char) (d : List Char),
    (splitOnDot cs).getLastD d = afterLastDot cs := by
  intro cs
  induction cs with
  | nil => intro d; rfl
  | cons c rest ih =>
    intro d
    simp only [splitOnDot, afterLastDot]
    by_cases hc : c = '.'
    · rw [if_pos hc, List.getLastD_cons, ih []]
      by_cases hr : '.' ∈ rest
      · rw [contains_eq_true_of_mem hr]
        simp
      · rw [contains_eq_false_of_not_mem hr]
        simp [hc, afterLastDot_no_dot rest hr]
    · rw [if_neg hc]
      by_cases hr : '.' ∈ rest
      · obtain ⟨h, t, hs, ht⟩ := splitOnDot_dot_mem rest hr
        rw [hs]
        show ((c :: h) :: t).getLastD d = _
        rw [List.getLastD_cons]
        have h1 := ih d
        rw [hs, List.getLastD_cons] at h1
        rw [getLastD_default_irrel t (c :: h) h ht, h1,
          contains_eq_true_of_mem hr]
        simp
      · rw [splitOnDot_no_dot rest hr]
        show ((c :: rest) :: ([] : List (List Char))).getLastD d = _
        rw [contains_eq_false_of_not_mem hr]
        simp [hc, afterLastDot_no_dot rest hr]

/- ===================== claim C10 ===================== -/

/-- Claim C10: the declared format that both ingest validation and
extraction dispatch use is the substring of the lowercased filename after
its last dot; with no dot the whole lowercased filename is used, so the
bare filenames pdf, docx, doc and txt pass the allow-set check and are
dispatched to the corresponding extractor instead of being rejected. -/
theorem C10_extension_dispatch :
    (∀ filename : String,
      file_extension filename =
        String.mk (afterLastDot (filename.data.map lowerChar))) ∧
    (∀ filename : String, '.' ∉ filename.data →
      file_extension filename = String.mk (filename.data.map lowerChar)) ∧
    (ingest_extension_allowed "pdf" = true ∧
      extract_format "pdf" = some FileFormat.pdf) ∧
    (ingest_extension_allowed "docx" = true ∧
      extract_format "docx" = some FileFormat.docx) ∧
    (ingest_extension_allowed "doc" = true ∧
      extract_format "doc" = some FileFormat.docx) ∧
    (ingest_extension_allowed "txt" = true ∧
      extract_format "txt" = some FileFormat.txt) := by
  have h1 : ∀ filename : String,
      file_extension filename =
        String.mk (afterLastDot (filename.data.map lowerChar)) := by
    intro filename
    unfold file_extension
    rw [splitOnDot_getLastD]
  refine ⟨h1, ?_, by decide, by decide, by decide, by decide⟩
  intro filename h
  rw [h1]
  congr 1
  exact afterLastDot_no_dot _ (map_lowerChar_no_dot _ h)

/-- Witness for C10_extension_dispatch: the dotless filename pdf keeps its
whole lowercased name as its declared format. -/
theorem C10_extension_dispatch_witness :
    file_extension "pdf" = String.mk (("pdf" : String).data.map lowerChar) :=
  C10_extension_dispatch.2.1 "pdf" (by decide)
